import Mathlib

/-!
Verification of the AudioBookRequest acquisition-and-organization pipeline.

Shallow embedding of `app/routers/api/downloads.py` and
`app/internal/processing/processor.py`.  Database tables are modelled as
lists of rows, the filesystem as explicit structures, and side effects as
event traces.  Collaborator modules that are not part of the sources
(`app.internal.models`, the prowlarr cache, `natural_sort`,
`generate_audiobook_filename`, `LibraryScanner`) are modelled from the
specification where a claim needs them; each such definition says so in
its doc comment.
-/

namespace ABR

/-- Catalog record for a title (`Audiobook` in `app.internal.models`).
`release_year` stands for `release_date.year`; only the fields the core
reads are modelled. -/
structure Audiobook where
  asin : String
  title : String
  authors : List String
  series : Option String := none
  series_index : Option ℚ := none
  release_year : Option Int := none
  cover_image : Option String := none
  downloaded : Bool := false
deriving DecidableEq, Repr

/-- One acquisition attempt (`AudiobookRequest` in `app.internal.models`). -/
structure AudiobookRequest where
  asin : String
  user_username : String
  processing_status : String := "pending"
  download_progress : ℚ := 0
  torrent_hash : Option String := none
  download_state : Option String := none
  mam_id : Option String := none
deriving DecidableEq, Repr

/-! ## Request table operations (`downloads.py`) -/

/-- `_get_request` (downloads.py line 71-72): first row whose asin matches. -/
def getRequest (table : List AudiobookRequest) (asin : String) : Option AudiobookRequest :=
  table.find? (fun r => r.asin == asin)

/-- The in-place reset `create_download` performs on an existing row
(downloads.py lines 116-119). -/
def resetRequest (r : AudiobookRequest) : AudiobookRequest :=
  { r with processing_status := "pending", download_progress := 0,
           torrent_hash := none, download_state := none }

/-- Replace the first element satisfying `p` (the ORM mutates the fetched
row in place; every other row is untouched). -/
def replaceFirst (p : α → Bool) (f : α → α) : List α → List α
  | [] => []
  | x :: xs => if p x then f x :: xs else x :: replaceFirst p f xs

/-- Row inserted by `create_download` when no request exists
(downloads.py line 131): fresh row in `pending` with zero progress. -/
def newRequest (asin user : String) : AudiobookRequest :=
  { asin := asin, user_username := user }

/-- Effect of `create_download` on the AudiobookRequest table
(downloads.py lines 112-141): reset the existing row in place, or append
one fresh row. -/
def create_download_requests (table : List AudiobookRequest) (asin user : String) :
    List AudiobookRequest :=
  match getRequest table asin with
  | some _ => replaceFirst (fun r => r.asin == asin) resetRequest table
  | none => table ++ [newRequest asin user]

theorem replaceFirst_countP (p : α → Bool) (f : α → α) (q : α → Bool)
    (h : ∀ x, q (f x) = q x) : ∀ l : List α, (replaceFirst p f l).countP q = l.countP q := by
  intro l
  induction l with
  | nil => rfl
  | cons x xs ih =>
    by_cases hp : p x = true
    · simp [replaceFirst, hp, List.countP_cons, h]
    · simp [replaceFirst, hp, List.countP_cons, ih]

theorem replaceFirst_split (p : α → Bool) (f : α → α) :
    ∀ (l : List α) (a : α), l.find? p = some a →
      ∃ l1 l2, l = l1 ++ a :: l2 ∧ (∀ x ∈ l1, p x = false)
        ∧ replaceFirst p f l = l1 ++ f a :: l2 := by
  intro l
  induction l with
  | nil => intro a h; simp [List.find?] at h
  | cons x xs ih =>
    intro a h
    by_cases hp : p x = true
    · have hxa : x = a := by
        simp only [List.find?, hp] at h
        exact Option.some.inj h
      subst hxa
      exact ⟨[], xs, by simp, by simp, by simp [replaceFirst, hp]⟩
    · simp only [List.find?] at h
      rw [Bool.not_eq_true] at hp
      rw [hp] at h
      obtain ⟨l1, l2, hsplit, hl1, hrep⟩ := ih a h
      refine ⟨x :: l1, l2, by simp [hsplit], ?_, ?_⟩
      · intro y hy
        rcases List.mem_cons.mp hy with rfl | hy
        · exact hp
        · exact hl1 y hy
      · simp [replaceFirst, hp, hrep]

/-- C1: for every asin, at most one AudiobookRequest row exists at any time:
when `create_download` is called for an asin with an existing request row,
it mutates that row in place (status `"pending"`, progress `0.0`,
`torrent_hash` and `download_state` cleared) and never inserts a second row
for the same asin. -/
theorem create_download_single_row_per_asin
    (table : List AudiobookRequest) (asin user : String)
    (hinv : ∀ a : String, table.countP (fun r => r.asin == a) ≤ 1) :
    (∀ a : String,
        (create_download_requests table asin user).countP (fun r => r.asin == a) ≤ 1)
    ∧ ((create_download_requests table asin user).length =
        table.length + (if getRequest table asin = none then 1 else 0))
    ∧ (∀ r0, getRequest table asin = some r0 →
        ∃ l1 l2, table = l1 ++ r0 :: l2
          ∧ create_download_requests table asin user = l1 ++ resetRequest r0 :: l2
          ∧ (resetRequest r0).asin = r0.asin
          ∧ (resetRequest r0).processing_status = "pending"
          ∧ (resetRequest r0).download_progress = 0
          ∧ (resetRequest r0).torrent_hash = none
          ∧ (resetRequest r0).download_state = none) := by
  cases hreq : getRequest table asin with
  | some r0 =>
    have hfind : List.find? (fun r : AudiobookRequest => r.asin == asin) table = some r0 :=
      hreq
    obtain ⟨l1, l2, hsplit, _, hrep⟩ :=
      replaceFirst_split (fun r : AudiobookRequest => r.asin == asin) resetRequest table r0
        hfind
    have hresets : ∀ (a : String) (x : AudiobookRequest),
        ((resetRequest x).asin == a) = (x.asin == a) := fun a x => rfl
    refine ⟨?_, ?_, ?_⟩
    · intro a
      simp only [create_download_requests, hreq]
      rw [replaceFirst_countP _ _ _ (hresets a)]
      exact hinv a
    · simp only [create_download_requests, hreq]
      rw [hrep, hsplit]
      simp
    · intro r0' hr0'
      obtain rfl : r0 = r0' := Option.some.inj hr0'
      refine ⟨l1, l2, hsplit, ?_, rfl, rfl, rfl, rfl, rfl⟩
      simp only [create_download_requests, hreq, hrep]
  | none =>
    have hzero : table.countP (fun r => r.asin == asin) = 0 := by
      rw [List.countP_eq_zero]
      intro r hr
      have := List.find?_eq_none.mp hreq r hr
      simpa using this
    refine ⟨?_, ?_, ?_⟩
    · intro a
      simp only [create_download_requests, hreq, List.countP_append]
      by_cases ha : asin = a
      · subst ha
        have : List.countP (fun r => r.asin == asin) [newRequest asin user] = 1 := by
          simp [newRequest, List.countP_cons]
        rw [hzero] at *
        omega
      · have : List.countP (fun r => r.asin == a) [newRequest asin user] = 0 := by
          simp [newRequest, List.countP_cons, ha]
        rw [this]
        simpa using hinv a
    · simp [create_download_requests, hreq]
    · intro r0 hr0
      simp at hr0

/-- Demonstration row: a finished/stale request for asin B001. -/
def demoRequestRow : AudiobookRequest :=
  { asin := "B001", user_username := "alice", processing_status := "failed",
    download_progress := 1, torrent_hash := some "deadbeef",
    download_state := some "stalled" }

theorem create_download_single_row_per_asin_witness :
    (∀ a : String, ([demoRequestRow].countP (fun r => r.asin == a)) ≤ 1)
    ∧ ((∀ a : String,
          (create_download_requests [demoRequestRow] "B001" "alice").countP
            (fun r => r.asin == a) ≤ 1)
    ∧ ((create_download_requests [demoRequestRow] "B001" "alice").length =
        [demoRequestRow].length +
          (if getRequest [demoRequestRow] "B001" = none then 1 else 0))
    ∧ (∀ r0, getRequest [demoRequestRow] "B001" = some r0 →
        ∃ l1 l2, [demoRequestRow] = l1 ++ r0 :: l2
          ∧ create_download_requests [demoRequestRow] "B001" "alice"
              = l1 ++ resetRequest r0 :: l2
          ∧ (resetRequest r0).asin = r0.asin
          ∧ (resetRequest r0).processing_status = "pending"
          ∧ (resetRequest r0).download_progress = 0
          ∧ (resetRequest r0).torrent_hash = none
          ∧ (resetRequest r0).download_state = none)) := by
  have h : ∀ a : String, ([demoRequestRow].countP (fun r => r.asin == a)) ≤ 1 := by
    intro a
    simpa using List.countP_le_length (l := [demoRequestRow]) (p := fun r => r.asin == a)
  exact ⟨h, create_download_single_row_per_asin [demoRequestRow] "B001" "alice" h⟩

/-! ## Part labels (`processor.py`) -/

/-- Zero-padding of a nonnegative integer to a minimum width, as Python
format `0{padding}d` does. -/
def padNum (width n : ℕ) : String :=
  let s := toString n
  String.mk (List.replicate (width - s.length) '0') ++ s

/-- Part label computed in `process_completed_download`
(processor.py lines 233-237). -/
def part_label_processor (total idx : ℕ) : String :=
  let padding := if total ≥ 100 then 3 else 2
  if total > 1 then "Part " ++ padNum padding idx else ""

/-- Part label computed in `reorganize_existing_book`
(processor.py lines 376-379). -/
def part_label_reorganizer (total idx : ℕ) : String :=
  let padding := if total ≥ 100 then 3 else 2
  if total > 1 then "Part " ++ padNum padding idx else ""

/-- C5: with one audio file no part label is appended; with 2..99 files the
label is "Part " plus the index zero-padded to 2 digits; with 100 or more
files it widens to 3 digits; both code sites compute the same label. -/
theorem part_label_padding (total idx : ℕ) :
    part_label_processor total idx = part_label_reorganizer total idx
    ∧ (total = 1 → part_label_processor total idx = "")
    ∧ (2 ≤ total → total ≤ 99 → part_label_processor total idx = "Part " ++ padNum 2 idx)
    ∧ (100 ≤ total → part_label_processor total idx = "Part " ++ padNum 3 idx)
    ∧ (1 ≤ idx → idx ≤ 99 → (padNum 2 idx).length = 2) := by
  refine ⟨rfl, ?_, ?_, ?_, ?_⟩
  · rintro rfl
    rfl
  · intro h2 h99
    have hlt : ¬ total ≥ 100 := by omega
    have hgt : total > 1 := by omega
    simp [part_label_processor, hlt, hgt]
  · intro h100
    have hgt : total > 1 := by omega
    simp [part_label_processor, h100, hgt]
  · intro h1 h99
    interval_cases idx <;> decide

/-! ## `smart_copy` (processor.py lines 25-51) -/

/-- Content-level filesystem: maps an absolute path to the content of the
file stored there, if any. -/
def FSMap := String → Option String

def fsUpdate (fs : FSMap) (p : String) (c : Option String) : FSMap :=
  fun q => if q = p then c else fs q

structure CopyResult where
  fs : FSMap
  raised : Bool

/-- `smart_copy` (processor.py lines 25-51): copies (or hardlinks) `src`
to `dst`; when `delete_source` it effectively moves.  It returns before
touching anything when the two absolute paths coincide.  At the level of
file contents a hardlink and a byte copy are indistinguishable (both leave
the source's content at the destination, and the hardlink branch falls
back to a byte copy on failure), so `use_hardlinks` does not change the
resulting map.  `raised` records the `FileNotFoundError` that both
`os.link` and `shutil.copy2` raise when the source does not exist. -/
def smart_copy (abspath : String → String) (fs : FSMap) (src dst : String)
    (use_hardlinks : Bool) (delete_source : Bool) : CopyResult :=
  if abspath src = abspath dst then ⟨fs, false⟩
  else
    match fs (abspath src) with
    | none => ⟨fs, true⟩
    | some c =>
      let fs1 := fsUpdate fs (abspath dst) (some c)
      if delete_source then ⟨fsUpdate fs1 (abspath src) none, false⟩ else ⟨fs1, false⟩

/-- C4: `smart_copy` is a no-op (filesystem unchanged, nothing raised,
including in move mode) when the absolute paths of source and destination
coincide; and calling it twice with the same distinct source and
destination leaves the destination holding the source's content while no
other path is affected. -/
theorem smart_copy_noop_and_idempotent
    (abspath : String → String) (fs : FSMap) (src dst : String)
    (uh ds : Bool) (c : String) :
    (abspath src = abspath dst → smart_copy abspath fs src dst uh ds = ⟨fs, false⟩)
    ∧ (abspath src ≠ abspath dst → fs (abspath src) = some c →
        ((smart_copy abspath (smart_copy abspath fs src dst uh ds).fs
            src dst uh ds).fs (abspath dst) = some c
        ∧ ∀ q, q ≠ abspath src → q ≠ abspath dst →
            (smart_copy abspath (smart_copy abspath fs src dst uh ds).fs
              src dst uh ds).fs q = fs q)) := by
  constructor
  · intro h
    simp [smart_copy, h]
  · intro hne hsrc
    have hne' : abspath dst ≠ abspath src := fun h => hne h.symm
    cases ds with
    | false =>
      have h1 : smart_copy abspath fs src dst uh false
          = ⟨fsUpdate fs (abspath dst) (some c), false⟩ := by
        simp [smart_copy, hne, hsrc]
      have h2 : fsUpdate fs (abspath dst) (some c) (abspath src) = some c := by
        simp only [fsUpdate]
        rw [if_neg hne]
        exact hsrc
      rw [h1]
      have h3 : smart_copy abspath (fsUpdate fs (abspath dst) (some c)) src dst uh false
          = ⟨fsUpdate (fsUpdate fs (abspath dst) (some c)) (abspath dst) (some c),
              false⟩ := by
        simp [smart_copy, hne, h2]
      rw [h3]
      constructor
      · simp [fsUpdate]
      · intro q hq1 hq2
        simp [fsUpdate, hq2]
    | true =>
      have h1 : smart_copy abspath fs src dst uh true
          = ⟨fsUpdate (fsUpdate fs (abspath dst) (some c)) (abspath src) none,
              false⟩ := by
        simp [smart_copy, hne, hsrc]
      have h2 : fsUpdate (fsUpdate fs (abspath dst) (some c)) (abspath src) none
          (abspath src) = none := by
        simp [fsUpdate]
      rw [h1]
      have h3 : smart_copy abspath
          (fsUpdate (fsUpdate fs (abspath dst) (some c)) (abspath src) none)
          src dst uh true
          = ⟨fsUpdate (fsUpdate fs (abspath dst) (some c)) (abspath src) none, true⟩ := by
        simp [smart_copy, hne, h2]
      rw [h3]
      constructor
      · simp only [fsUpdate]
        rw [if_neg hne']
        simp
      · intro q hq1 hq2
        simp [fsUpdate, hq1, hq2]

/-- A tiny filesystem with one source file. -/
def demoFSMap : FSMap := fun p => if p = "/dl/a.mp3" then some "AUDIO" else none

theorem smart_copy_noop_and_idempotent_witness :
    smart_copy id demoFSMap "/dl/a.mp3" "/dl/a.mp3" false true = ⟨demoFSMap, false⟩
    ∧ (smart_copy id (smart_copy id demoFSMap "/dl/a.mp3" "/lib/b.mp3" false true).fs
        "/dl/a.mp3" "/lib/b.mp3" false true).fs (id "/lib/b.mp3") = some "AUDIO" := by
  have hsame :=
    smart_copy_noop_and_idempotent id demoFSMap "/dl/a.mp3" "/dl/a.mp3" false true "AUDIO"
  have htwice :=
    smart_copy_noop_and_idempotent id demoFSMap "/dl/a.mp3" "/lib/b.mp3" false true "AUDIO"
  exact ⟨hsame.1 rfl, (htwice.2 (by decide) (by decide)).1⟩

/-! ## `create_download` admission (downloads.py lines 93-141) -/

inductive CreateOutcome
  | created
  | reopened
  | rejectedLibraryFolder
  | rejectedAlreadyInLibrary
deriving DecidableEq, Repr

/-- Admission decision of `create_download` (downloads.py lines 93-141):
`elb` is `existing_library_book` (the catalog row as it existed before the
call, `none` when the book was merged fresh during the call), `onDisk` is
`library_contains_asin`, `req` the existing request row.  Line 102-107
rejects when on disk unless a tracked-but-not-downloaded record exists;
line 109-110 rejects when the tracked record is marked downloaded; then
lines 112-141 reset or create the request row. -/
def create_download_check (elb : Option Audiobook) (onDisk : Bool)
    (req : Option AudiobookRequest) : CreateOutcome :=
  if onDisk && !(match elb with | some b => !b.downloaded | none => false) then
    .rejectedLibraryFolder
  else if (match elb with | some b => b.downloaded | none => false) then
    .rejectedAlreadyInLibrary
  else match req with
    | some _ => .reopened
    | none => .created

def CreateOutcome.isReject : CreateOutcome → Bool
  | .rejectedLibraryFolder => true
  | .rejectedAlreadyInLibrary => true
  | _ => false

/-- The rejection condition in the claim's own words (for comparison with
the code's behaviour): reject exactly when the catalog record is marked
downloaded AND the book is present on disk in the library folder. -/
def claimed_reject (elb : Option Audiobook) (onDisk : Bool) : Bool :=
  (match elb with | some b => b.downloaded | none => false) && onDisk

/-- A tracked catalog record already marked downloaded. -/
def demoBookDownloaded : Audiobook :=
  { asin := "B001", title := "T", authors := ["A"], downloaded := true }

/-- A tracked catalog record not yet downloaded. -/
def demoBookNotDownloaded : Audiobook :=
  { asin := "B001", title := "T", authors := ["A"] }

/-- C6 counterexample: a catalog record marked downloaded whose files are
absent from the library folder (`onDisk = false`).  The claim's "exactly
when downloaded and present on disk" predicts admission, but
`create_download` rejects with "Book already in library" (line 109-110
tests only the downloaded flag). -/
theorem create_download_check_counterexample :
    (create_download_check (some demoBookDownloaded) false none).isReject = true
    ∧ claimed_reject (some demoBookDownloaded) false = false := by
  decide

/-- C6 amended: `create_download` rejects with an already-in-library error
exactly when the pre-existing tracked catalog record is marked downloaded
(regardless of on-disk presence), or the book is present on disk in the
library folder while no catalog record was tracked before the call;
re-queueing is permitted when the tracked record is not yet marked
downloaded, and in the permitted cases the request row is reset to pending
(when one exists) or created. -/
theorem create_download_check_amended (elb : Option Audiobook) (onDisk : Bool)
    (req : Option AudiobookRequest) :
    ((create_download_check elb onDisk req).isReject = true ↔
      ((∃ b, elb = some b ∧ b.downloaded = true) ∨ (onDisk = true ∧ elb = none)))
    ∧ (∀ r, req = some r → (create_download_check elb onDisk req).isReject = false →
        create_download_check elb onDisk req = .reopened)
    ∧ (req = none → (create_download_check elb onDisk req).isReject = false →
        create_download_check elb onDisk req = .created) := by
  cases elb with
  | none =>
    cases onDisk <;> cases req <;>
      simp [create_download_check, CreateOutcome.isReject]
  | some b =>
    cases hb : b.downloaded <;> cases onDisk <;> cases req <;>
      simp [create_download_check, CreateOutcome.isReject, hb]

theorem create_download_check_amended_witness :
    ((create_download_check (some demoBookNotDownloaded) true
        (some demoRequestRow)).isReject = true ↔
      ((∃ b, some demoBookNotDownloaded = some b ∧ b.downloaded = true)
        ∨ (true = true ∧ some demoBookNotDownloaded = none)))
    ∧ (∀ r, some demoRequestRow = some r →
        (create_download_check (some demoBookNotDownloaded) true
          (some demoRequestRow)).isReject = false →
        create_download_check (some demoBookNotDownloaded) true (some demoRequestRow)
          = .reopened)
    ∧ (some demoRequestRow = none →
        (create_download_check (some demoBookNotDownloaded) true
          (some demoRequestRow)).isReject = false →
        create_download_check (some demoBookNotDownloaded) true (some demoRequestRow)
          = .created) :=
  create_download_check_amended (some demoBookNotDownloaded) true (some demoRequestRow)

/-! ## `delete_download` torrent selection (downloads.py lines 198-215) -/

structure QbitTorrent where
  hash : String
  tags : String
deriving DecidableEq, Repr

/-- Python's `in` operator on strings: substring containment. -/
def strContains (hay needle : String) : Bool :=
  decide (List.IsInfix needle.data hay.data)

/-- The torrents `delete_download` removes from the client
(downloads.py line 202-204): those whose tags string contains
`"asin:" + asin` anywhere as a substring. -/
def delete_download_selected (asin : String) (torrents : List QbitTorrent) :
    List QbitTorrent :=
  torrents.filter (fun t => strContains t.tags ("asin:" ++ asin))

/-- C10: `delete_download` selects torrents by substring containment of
`"asin:<asin>"` in the tags string, not exact tag equality; consequently
deleting asin B001 also removes a torrent tagged for the distinct asin
B0012. -/
theorem delete_download_substring_match (asin : String)
    (torrents : List QbitTorrent) :
    (∀ t, t ∈ delete_download_selected asin torrents ↔
        t ∈ torrents ∧ List.IsInfix ("asin:" ++ asin).data t.tags.data)
    ∧ delete_download_selected "B001" [⟨"h1", "asin:B0012"⟩]
        = [⟨"h1", "asin:B0012"⟩]
    ∧ "B0012" ≠ "B001" := by
  refine ⟨?_, by decide, by decide⟩
  intro t
  simp [delete_download_selected, strContains, List.mem_filter]

/-! ## Source cache and `start_download_source` (downloads.py lines 273-343) -/

structure ProwlarrSource where
  guid : String
  indexer_id : Int
deriving DecidableEq, Repr

/-- Modelled from the spec: a cache entry `(key, fetched_at, results)` of
`prowlarr_source_cache` (`app.internal.prowlarr.util`, not in src/). -/
structure CacheEntry where
  fetched_at : ℕ
  sources : List ProwlarrSource

def SourceCache := String → Option CacheEntry

/-- Modelled from the spec: cache lookup honouring the configured TTL — an
entry older than the TTL, or absent (e.g. after a flush), yields nothing. -/
def cache_get (ttl now : ℕ) (cache : SourceCache) (key : String) :
    Option (List ProwlarrSource) :=
  match cache key with
  | none => none
  | some e => if now ≤ e.fetched_at + ttl then some e.sources else none

/-- Modelled from the spec: the flush triggered when indexer configuration
changes (`flush_prowlarr_cache`, called from `settings/prowlarr.py`)
invalidates every entry immediately. -/
def flush_prowlarr_cache : SourceCache := fun _ => none

/-- Modelled from the spec: the normalized query signature built from the
audiobook's title/authors/series (`build_prowlarr_query` in
`app.internal.prowlarr.prowlarr`, not in src/); `query_sources` stores
results under this same key when listing. -/
def build_prowlarr_query (book : Audiobook) : String :=
  String.intercalate " " (book.title :: book.authors ++ book.series.toList)

/-- The cache key `start_download_source` re-derives
(downloads.py line 300-301). -/
def start_download_cache_key (book : Option Audiobook) : String :=
  match book with
  | some b => build_prowlarr_query b
  | none => ""

inductive StartDownloadResponse
  | notFoundActive
  | sourceNotFound
  | started
deriving DecidableEq, Repr

structure StartDownloadOutcome where
  response : StartDownloadResponse
  submissions : List (String × Int)
  request : Option AudiobookRequest

/-- `start_download_source` (downloads.py lines 273-343): requires an
active request for a not-yet-downloaded book, re-derives the cache key,
looks the chosen result up in the cached list by `(guid, indexer_id)`, and
responds 404 without submitting anything when the cache no longer holds
it.  `submissions` records calls to the `start_download` collaborator. -/
def start_download_source (requestRow : Option AudiobookRequest)
    (book : Option Audiobook) (ttl now : ℕ) (cache : SourceCache)
    (guid : String) (indexer_id : Int) : StartDownloadOutcome :=
  match requestRow with
  | none => ⟨.notFoundActive, [], none⟩
  | some req =>
    let sources := cache_get ttl now cache (start_download_cache_key book)
    let source :=
      match sources with
      | some ss =>
          ss.find? (fun (s : ProwlarrSource) =>
            s.guid == guid && s.indexer_id == indexer_id)
      | none => none
    match source with
    | none => ⟨.sourceNotFound, [], some req⟩
    | some _ => ⟨.started, [(guid, indexer_id)], some req⟩

/-- C8: `start_download_source` re-derives the cache key from the book's
catalog attributes (the same signature `query_sources` lists under), and
whenever the entry has expired or been flushed between listing and
selection it fails with a not-found rejection: no download submitted and
the request row untouched. -/
theorem start_download_source_cache_miss (req : AudiobookRequest) (b : Audiobook)
    (ttl now : ℕ) (cache : SourceCache) (guid : String) (indexer_id : Int)
    (hmiss : cache (build_prowlarr_query b) = none
      ∨ ∃ e, cache (build_prowlarr_query b) = some e ∧ e.fetched_at + ttl < now) :
    start_download_cache_key (some b) = build_prowlarr_query b
    ∧ (start_download_source (some req) (some b) ttl now cache guid
        indexer_id).response = .sourceNotFound
    ∧ (start_download_source (some req) (some b) ttl now cache guid
        indexer_id).submissions = []
    ∧ (start_download_source (some req) (some b) ttl now cache guid
        indexer_id).request = some req
    ∧ (start_download_source (some req) (some b) ttl now flush_prowlarr_cache guid
        indexer_id).response = .sourceNotFound := by
  have hget : cache_get ttl now cache (build_prowlarr_query b) = none := by
    rcases hmiss with h | ⟨e, he, hexp⟩
    · simp [cache_get, h]
    · simp only [cache_get, he]
      rw [if_neg (by omega)]
  have houtcome : start_download_source (some req) (some b) ttl now cache guid
      indexer_id = ⟨.sourceNotFound, [], some req⟩ := by
    simp only [start_download_source, start_download_cache_key]
    rw [hget]
  refine ⟨rfl, by rw [houtcome], by rw [houtcome], by rw [houtcome], ?_⟩
  simp [start_download_source, start_download_cache_key, cache_get,
    flush_prowlarr_cache]

/-- An expired cache: the sole entry was fetched at time 0, the TTL is 60
and the lookup happens at time 100. -/
def demoExpiredCache : SourceCache :=
  fun k =>
    if k = build_prowlarr_query demoBookNotDownloaded then
      some ⟨0, [⟨"guid-1", 2⟩]⟩
    else none

theorem start_download_source_cache_miss_witness :
    (demoExpiredCache (build_prowlarr_query demoBookNotDownloaded) = none
      ∨ ∃ e, demoExpiredCache (build_prowlarr_query demoBookNotDownloaded) = some e
          ∧ e.fetched_at + 60 < 100)
    ∧ (start_download_cache_key (some demoBookNotDownloaded)
          = build_prowlarr_query demoBookNotDownloaded
      ∧ (start_download_source (some demoRequestRow) (some demoBookNotDownloaded)
          60 100 demoExpiredCache "guid-1" 2).response = .sourceNotFound
      ∧ (start_download_source (some demoRequestRow) (some demoBookNotDownloaded)
          60 100 demoExpiredCache "guid-1" 2).submissions = []
      ∧ (start_download_source (some demoRequestRow) (some demoBookNotDownloaded)
          60 100 demoExpiredCache "guid-1" 2).request = some demoRequestRow
      ∧ (start_download_source (some demoRequestRow) (some demoBookNotDownloaded)
          60 100 flush_prowlarr_cache "guid-1" 2).response = .sourceNotFound) := by
  have hmiss : demoExpiredCache (build_prowlarr_query demoBookNotDownloaded) = none
      ∨ ∃ e, demoExpiredCache (build_prowlarr_query demoBookNotDownloaded) = some e
          ∧ e.fetched_at + 60 < 100 :=
    Or.inr ⟨⟨0, [⟨"guid-1", 2⟩]⟩, by simp [demoExpiredCache], by decide⟩
  exact ⟨hmiss,
    start_download_source_cache_miss demoRequestRow demoBookNotDownloaded
      60 100 demoExpiredCache "guid-1" 2 hmiss⟩

/-! ## Filesystem model and natural sort -/

/-- `str.split(sep)` for a one-character separator. -/
def splitOnChar (sep : Char) (s : String) : List String :=
  (s.data.foldr (fun c acc =>
    match acc with
    | [] => [[c]]
    | g :: gs => if c = sep then [] :: g :: gs else (c :: g) :: gs) [[]]).map
    (fun g => String.mk g)

/-- Left-to-right non-overlapping replacement of a non-empty pattern; the
fuel argument (initialized to the string length) only bounds recursion. -/
def replaceAux (pat rep : List Char) : ℕ → List Char → List Char
  | 0, cs => cs
  | _ + 1, [] => []
  | fuel + 1, c :: cs =>
    if pat.isPrefixOf (c :: cs) && !pat.isEmpty then
      rep ++ replaceAux pat rep fuel ((c :: cs).drop pat.length)
    else
      c :: replaceAux pat rep fuel cs

/-- `str.replace(pat, rep)` for non-empty `pat`. -/
def strReplace (s pat rep : String) : String :=
  String.mk (replaceAux pat.data rep.data s.data.length s.data)

/-- A path as its slash-separated components.  All paths are kept in
`os.path.abspath` normal form, so the code's absolute-path comparisons are
component-list equality here. -/
abbrev FPath := List String

/-- Directories and regular files of the filesystem tree. -/
structure FileSys where
  files : List FPath
  dirs : List FPath
deriving DecidableEq, Repr

def toFPath (s : String) : FPath := splitOnChar '/' s

def ofFPath (p : FPath) : String := String.intercalate "/" p

def fileName (p : FPath) : String := p.getLastD ""

/-- Strictly below `root` (at any depth). -/
def underF (root p : FPath) : Bool := root ≠ p && root.isPrefixOf p

/-- The files `os.walk(root)` reports (full paths, any depth), in the
order the filesystem enumerates them; callers sort afterwards. -/
def walkFiles (fs : FileSys) (root : FPath) : List FPath :=
  fs.files.filter (fun f => underF root f)

def strLower (s : String) : String := String.mk (s.data.map Char.toLower)

/-- The recognized audio extensions (processor.py lines 171-184). -/
def audioExts : List String :=
  [".m4b", ".mp3", ".m4a", ".flac", ".wav", ".ogg", ".opus", ".aac", ".wma"]

/-- `file.lower().endswith(ext)` over the recognized set. -/
def hasAudioExt (name : String) : Bool :=
  audioExts.any (fun e => e.data.isSuffixOf (strLower name).data)

/-- `os.path.splitext(...)[1]`: the extension starting at the last dot of
the final component, empty when the only dot is leading. -/
def splitext_ext (name : String) : String :=
  let cs := name.data
  let afterDot := cs.reverse.takeWhile (fun c => c ≠ '.')
  if afterDot.length = cs.length then ""
  else
    let dotPos := cs.length - afterDot.length - 1
    if dotPos = 0 then "" else String.mk (cs.drop dotPos)

/-- Modelled from the spec: `natural_sort` (`app.util.sort`, not in src/):
numeric-aware ordering that compares embedded digit runs numerically, so
"Part 2" sorts before "Part 10".  A string is tokenized into alternating
digit runs (as numbers) and non-digit runs. -/
def tokStep (acc : List (Nat ⊕ String)) (c : Char) : List (Nat ⊕ String) :=
  if c.isDigit then
    match acc with
    | Sum.inl n :: rest => Sum.inl (n * 10 + (c.toNat - 48)) :: rest
    | _ => Sum.inl (c.toNat - 48) :: acc
  else
    match acc with
    | Sum.inr t :: rest => Sum.inr (t.push c) :: rest
    | _ => Sum.inr (String.singleton c) :: acc

def natTokens (s : String) : List (Nat ⊕ String) :=
  (s.data.foldl tokStep []).reverse

def charListLt : List Char → List Char → Bool
  | [], [] => false
  | [], _ :: _ => true
  | _ :: _, [] => false
  | a :: as, b :: bs =>
    if a < b then true else if b < a then false else charListLt as bs

def tokLt : (Nat ⊕ String) → (Nat ⊕ String) → Bool
  | Sum.inl m, Sum.inl n => m < n
  | Sum.inr s, Sum.inr t => charListLt s.data t.data
  | Sum.inl _, Sum.inr _ => true
  | Sum.inr _, Sum.inl _ => false

def tokListLt : List (Nat ⊕ String) → List (Nat ⊕ String) → Bool
  | [], [] => false
  | [], _ :: _ => true
  | _ :: _, [] => false
  | a :: as, b :: bs =>
    if tokLt a b then true else if tokLt b a then false else tokListLt as bs

def natLe (a b : String) : Bool := !(tokListLt (natTokens b) (natTokens a))

/-- Modelled from the spec: natural sort of full path strings. -/
def natural_sort (l : List FPath) : List FPath :=
  l.insertionSort (fun a b => natLe (ofFPath a) (ofFPath b))

/-! ## Naming helpers (`app.internal.library.service`, not in src/) -/

/-- Modelled from the spec: `generate_audiobook_filename` renders the
configured naming pattern for the book and appends the part label and
extension, giving the on-disk layout `<NamePattern> [Part NN].<ext>`. -/
def generate_audiobook_filename (book : Audiobook) (pattern part_str ext : String) :
    String :=
  let author := book.authors.headD "Unknown"
  let base := strReplace (strReplace pattern "{title}" book.title) "{author}" author
  (if part_str = "" then base else base ++ " " ++ part_str) ++ ext

def yearStr (book : Audiobook) : String :=
  match book.release_year with
  | some y => toString y
  | none => "Unknown"

/-- The fallback folder `"{author}/{title} ({year})"` computed when no
catalog-provided path exists (processor.py lines 124-130). -/
def default_folder_rel_path (book : Audiobook) : String :=
  (book.authors.headD "Unknown") ++ "/" ++ book.title ++ " (" ++ yearStr book ++ ")"

/-! ## `process_completed_download` (processor.py lines 54-307) -/

inductive ImportSessionStatus
  | scanning
  | completed
  | failed
deriving DecidableEq, Repr

inductive RequestLogLevel
  | info
  | error
deriving DecidableEq, Repr

/-- One observable effect of the processor.  `appLog` is the stdout logger
(`logger.info` / `logger.error`), which mutates no state; every other
constructor is a database or filesystem mutation.  `commitRequest` carries
the request's status and the `download_progress` value assigned in that
commit (`none` when the commit did not assign the progress field). -/
inductive PEvent
  | appLog (msg : String)
  | logRequest (level : RequestLogLevel) (msg : String)
  | commitRequest (status : String) (progress : Option ℚ)
  | addImportSession (root : String) (st : ImportSessionStatus)
  | setImportSessionStatus (st : ImportSessionStatus)
  | makeDirs (path : String)
  | transferFile (src dst : String) (use_hardlinks delete_source : Bool)
  | commitBookSeries
  | commitBookDownloaded
  | genAbsMetadata (dest : String)
  | genOpfMetadata (dest : String)
  | writeCover (path : String)
deriving DecidableEq, Repr

def PEvent.isMutation : PEvent → Bool
  | .appLog _ => false
  | _ => true

/-- Filesystem-touching events: directory creation, file transfer (with
its delete-source flag), metadata sidecars, cover write. -/
def PEvent.isFileOp : PEvent → Bool
  | .makeDirs _ => true
  | .transferFile _ _ _ _ => true
  | .genAbsMetadata _ => true
  | .genOpfMetadata _ => true
  | .writeCover _ => true
  | _ => false

/-- Values the collaborators deliver to one run of the processor. -/
structure ProcEnv where
  /-- `session.get(Audiobook, book_request.asin)` (line 65). -/
  book : Option Audiobook
  /-- `media_management_config.get_library_path` (line 70). -/
  lib_root : Option String
  /-- `get_book_folder_path` (line 128), external library service. -/
  folder_rel_path : Option String
  /-- `download_client_config.get_qbit_complete_action` (line 138). -/
  complete_action : String
  /-- `media_management_config.get_file_pattern` (line 144). -/
  file_pattern : String
  /-- `none` when `LibraryScanner.scan` returns, `some e` when it raises. -/
  scan_raises : Option String
  /-- Normalized `(series, series_index)` from `fetch_mam_book_details`,
  `none` when the lookup produced nothing or raised (lines 192-230). -/
  mam_result : Option (Option String × Option ℚ)
  /-- Whether the cover GET returned status 200 without raising. -/
  cover_ok : Bool

structure ProcResult where
  events : List PEvent
  request : AudiobookRequest
  book : Option Audiobook
  importSession : Option (String × ImportSessionStatus)

/-- Progress committed after transferring file `idx` of `total`
(processor.py line 245): `0.90 + (idx / total_files * 0.02)`. -/
def copy_progress (total idx : ℕ) : ℚ :=
  9 / 10 + ((idx : ℚ) / (total : ℚ)) * (2 / 100)

/-- Audio-file discovery (processor.py lines 166-190): a single directory
is walked recursively, filtered to the audio extensions and naturally
sorted; otherwise the pipe-delimited list is filtered to existing
non-directory entries and kept in order. -/
def collectAudioProc (fs : FileSys) (download_path : String) : List FPath :=
  let source_paths := splitOnChar '|' download_path
  if source_paths.length = 1 && fs.dirs.contains (toFPath (source_paths.headD "")) then
    natural_sort ((walkFiles fs (toFPath (source_paths.headD ""))).filter
      (fun f => hasAudioExt (fileName f)))
  else
    (source_paths.map toFPath).filter (fun p => fs.files.contains p)

/-- Best-effort MAM series enrichment (processor.py lines 192-230): only
attempted when the request carries a `mam_id`; when a result arrived and
the book lacks a series index, the series fields are updated and the book
row committed; failures were already absorbed into `mam_result = none`. -/
def applyMamEnrichment (book : Audiobook)
    (mam_result : Option (Option String × Option ℚ)) (has_mam_id : Bool) :
    Audiobook × List PEvent :=
  if has_mam_id then
    match mam_result, book.series_index with
    | some (mam_series, mam_index), none =>
      ({ book with
          series_index := mam_index,
          series := match book.series, mam_series with
            | none, some s => some s
            | s, _ => s },
        [.commitBookSeries])
    | _, _ => (book, [])
  else (book, [])

/-- `cover_ext` derivation (processor.py lines 287-290):
`os.path.splitext(url.split("?")[0])[1] or ".jpg"`. -/
def cover_extension (url : String) : String :=
  let base := (splitOnChar '?' url).headD ""
  let e := splitext_ext (fileName (toFPath base))
  if e = "" then ".jpg" else e

/-- The single-book branch (processor.py lines 124-307). -/
def process_single_book (env : ProcEnv) (book : Audiobook) (lib_root : String)
    (book_request : AudiobookRequest) (download_path : String) (fs : FileSys)
    (delete_source : Bool) (collection : Bool) : ProcResult :=
  let folder_rel_path := (env.folder_rel_path).getD (default_folder_rel_path book)
  let dest_path := lib_root ++ "/" ++ folder_rel_path
  let use_hardlinks := env.complete_action == "hardlink"
  let delete_source1 := delete_source || env.complete_action == "move"
  let delete_source2 := if collection then false else delete_source1
  let audio := collectAudioProc fs download_path
  let total := audio.length
  let enriched := applyMamEnrichment book env.mam_result book_request.mam_id.isSome
  let book1 := enriched.1
  let copyEvents := ((List.range' 1 total).zip audio).flatMap (fun pr =>
    let ext := strLower (splitext_ext (fileName pr.2))
    let part := part_label_processor total pr.1
    let fname := generate_audiobook_filename book1 env.file_pattern part ext
    [PEvent.transferFile (ofFPath pr.2) (dest_path ++ "/" ++ fname)
        use_hardlinks delete_source2,
      PEvent.commitRequest "organizing_files" (some (copy_progress total pr.1))])
  let coverEvents :=
    match book1.cover_image with
    | some url =>
      [PEvent.logRequest .info "Saving cover image.",
        PEvent.commitRequest "saving_cover" (some (98 / 100))] ++
      (if env.cover_ok then
        [PEvent.writeCover (dest_path ++ "/cover" ++ cover_extension url)]
      else [])
    | none => []
  { events :=
      [PEvent.makeDirs dest_path,
        PEvent.appLog "Processor: Organizing and renaming files",
        PEvent.logRequest .info "Organizing and renaming files.",
        PEvent.commitRequest "organizing_files" none]
      ++ enriched.2
      ++ copyEvents
      ++ [PEvent.commitBookDownloaded,
          PEvent.logRequest .info "Generating metadata files.",
          PEvent.commitRequest "generating_metadata" (some (95 / 100)),
          PEvent.genAbsMetadata dest_path,
          PEvent.genOpfMetadata dest_path]
      ++ coverEvents
      ++ [PEvent.logRequest .info "Import completed.",
          PEvent.commitRequest "completed" (some 1)],
    request := { book_request with
                  processing_status := "completed",
                  download_progress := 1 },
    book := some { book1 with downloaded := true },
    importSession := none }

/-- `process_completed_download` (processor.py lines 54-307).  The
collection branch (lines 76-122) creates the import session, delegates to
the scanner and returns before any file handling; the scanner marking its
session `completed` on success is modelled from the spec (LibraryScanner
is not in src/), while the `failed` transition on exception is the
processor's own (line 106). -/
def process_completed_download (env : ProcEnv) (book_request : AudiobookRequest)
    (download_path : String) (fs : FileSys) (delete_source : Bool)
    (collection : Bool) (collection_label : Option String) : ProcResult :=
  match env.book with
  | none =>
    { events := [.appLog "Processor: Book not found in database"],
      request := book_request, book := none, importSession := none }
  | some book =>
    match env.lib_root with
    | none =>
      { events := [.appLog "Processor: Library path not configured"],
        request := book_request, book := some book, importSession := none }
    | some lib_root =>
      if collection then
        let label := collection_label.getD "collection"
        let scanEvents :=
          match env.scan_raises with
          | none =>
            [PEvent.setImportSessionStatus .completed,
              PEvent.logRequest .info
                "Collection scan completed. Review/import items in Library > Import."]
          | some e =>
            [PEvent.setImportSessionStatus .failed,
              PEvent.appLog "Processor: Collection scan failed",
              PEvent.logRequest .error ("Collection scan failed: " ++ e)]
        let finalStatus :=
          match env.scan_raises with
          | none => ImportSessionStatus.completed
          | some _ => ImportSessionStatus.failed
        { events :=
            [PEvent.logRequest .info
                ("Collection download completed. Scanning folder for books ("
                  ++ label ++ ")"),
              PEvent.addImportSession download_path .scanning]
            ++ scanEvents
            ++ [PEvent.commitRequest "completed" none],
          request := { book_request with processing_status := "completed" },
          book := some book,
          importSession := some (download_path, finalStatus) }
      else
        process_single_book env book lib_root book_request download_path fs
          delete_source collection

/-- The `download_progress` values committed by one run, in order. -/
def progressOf : PEvent → Option ℚ
  | .commitRequest _ (some p) => some p
  | _ => none

def progressTrace (r : ProcResult) : List ℚ := r.events.filterMap progressOf

/-- The committed progress values of the single-book branch as the claim
states them: `0.90 + (idx/N)*0.02` per transferred file, `0.95` during
metadata generation, `0.98` during cover save (when a cover exists),
`1.0` on completion. -/
def progress_commits (total : ℕ) (has_cover : Bool) : List ℚ :=
  ((List.range' 1 total).map (copy_progress total)) ++ [95 / 100]
    ++ (if has_cover then [98 / 100] else []) ++ [1]

theorem copy_progress_mono (total a b : ℕ) (h : a ≤ b) :
    copy_progress total a ≤ copy_progress total b := by
  unfold copy_progress
  rcases Nat.eq_zero_or_pos total with h0 | hpos
  · subst h0
    simp
  · have ht : (0 : ℚ) < (total : ℚ) := by exact_mod_cast hpos
    have hab : (a : ℚ) ≤ (b : ℚ) := by exact_mod_cast h
    gcongr <;> try exact hab

theorem copy_progress_le_92 (total i : ℕ) (h : i ≤ total) :
    copy_progress total i ≤ 92 / 100 := by
  unfold copy_progress
  rcases Nat.eq_zero_or_pos total with h0 | hpos
  · subst h0
    have hi : i = 0 := Nat.le_zero.mp h
    subst hi
    norm_num
  · have ht : (0 : ℚ) < (total : ℚ) := by exact_mod_cast hpos
    have h1 : (i : ℚ) / (total : ℚ) ≤ 1 := by
      rw [div_le_one ht]
      exact_mod_cast h
    have h2 : (i : ℚ) / (total : ℚ) * (2 / 100) ≤ 1 * (2 / 100) :=
      mul_le_mul_of_nonneg_right h1 (by norm_num)
    linarith

theorem copy_progress_ge_90 (total i : ℕ) : 9 / 10 ≤ copy_progress total i := by
  unfold copy_progress
  have h : (0 : ℚ) ≤ (i : ℚ) / (total : ℚ) * (2 / 100) := by positivity
  linarith

theorem copy_progress_at_total (total : ℕ) (h : 1 ≤ total) :
    copy_progress total total = 92 / 100 := by
  unfold copy_progress
  have ht : (total : ℚ) ≠ 0 := Nat.cast_ne_zero.mpr (by omega)
  rw [div_self ht]
  norm_num

theorem progress_commits_mem_tail (total : ℕ) (hc : Bool) (b : ℚ)
    (hb : b ∈ [(95 : ℚ) / 100] ++ (if hc then [(98 : ℚ) / 100] else []) ++ [1]) :
    95 / 100 ≤ b := by
  cases hc with
  | false =>
    simp at hb
    rcases hb with rfl | rfl <;> norm_num
  | true =>
    simp at hb
    rcases hb with rfl | rfl | rfl <;> norm_num

theorem progress_commits_sorted (total : ℕ) (hc : Bool) :
    (progress_commits total hc).Pairwise (· ≤ ·) := by
  unfold progress_commits
  rw [List.append_assoc, List.append_assoc, List.pairwise_append]
  refine ⟨?_, ?_, ?_⟩
  · exact (List.pairwise_lt_range' 1 total).map (copy_progress total)
      (fun a b hab => copy_progress_mono total a b (le_of_lt hab))
  · rw [← List.append_assoc]
    cases hc <;> norm_num [List.pairwise_cons, List.pairwise_append]
  · intro a ha b hb
    obtain ⟨i, hi, rfl⟩ := List.mem_map.mp ha
    have hi' : i ≤ total := by
      have := List.mem_range'_1.mp hi
      omega
    have h1 := copy_progress_le_92 total i hi'
    have h2 : (95 : ℚ) / 100 ≤ b := by
      apply progress_commits_mem_tail total hc
      rw [List.append_assoc]
      exact hb
    linarith

theorem progress_commits_last (total : ℕ) (hc : Bool) :
    (progress_commits total hc).getLast? = some 1 := by
  unfold progress_commits
  rw [List.getLast?_concat]

theorem progress_commits_ge (total : ℕ) (hc : Bool) :
    ∀ x ∈ progress_commits total hc, (9 : ℚ) / 10 ≤ x := by
  intro x hx
  unfold progress_commits at hx
  rw [List.append_assoc, List.append_assoc, List.mem_append] at hx
  rcases hx with hx | hx
  · obtain ⟨i, _, rfl⟩ := List.mem_map.mp hx
    exact copy_progress_ge_90 total i
  · have h2 : (95 : ℚ) / 100 ≤ x := by
      apply progress_commits_mem_tail total hc
      rw [List.append_assoc]
      exact hx
    linarith

theorem applyMamEnrichment_cover (book : Audiobook)
    (m : Option (Option String × Option ℚ)) (h : Bool) :
    (applyMamEnrichment book m h).1.cover_image = book.cover_image := by
  cases h with
  | false => rfl
  | true =>
    cases m with
    | none => rfl
    | some p =>
      obtain ⟨ms, mi⟩ := p
      cases hsi : book.series_index <;> simp [applyMamEnrichment, hsi]

theorem applyMamEnrichment_progress (book : Audiobook)
    (m : Option (Option String × Option ℚ)) (h : Bool) :
    ((applyMamEnrichment book m h).2).filterMap progressOf = [] := by
  cases h with
  | false => rfl
  | true =>
    cases m with
    | none => rfl
    | some p =>
      obtain ⟨ms, mi⟩ := p
      cases hsi : book.series_index <;> simp [applyMamEnrichment, hsi, progressOf]

theorem flatMap_singleton_map (h : α → β) (l : List α) :
    (l.flatMap fun a => [h a]) = l.map h := by
  induction l with
  | nil => rfl
  | cons x xs ih =>
    simp only [List.flatMap_cons, List.map_cons, ih, List.singleton_append]

/-- C7: when the catalog record is missing or the library root is not
configured, `process_completed_download` aborts immediately after logging:
no request field, catalog field, import session, or filesystem entry is
created or mutated by the call. -/
theorem process_error_no_mutation (env : ProcEnv) (req : AudiobookRequest)
    (dp : String) (fs : FileSys) (ds col : Bool) (cl : Option String)
    (h : env.book = none ∨ env.lib_root = none) :
    ((process_completed_download env req dp fs ds col cl).events.filter
        (fun e => e.isMutation)) = []
    ∧ (process_completed_download env req dp fs ds col cl).request = req
    ∧ (process_completed_download env req dp fs ds col cl).book = env.book
    ∧ (process_completed_download env req dp fs ds col cl).importSession = none := by
  rcases h with h | h
  · simp [process_completed_download, h, PEvent.isMutation]
  · cases hb : env.book with
    | none => simp [process_completed_download, hb, PEvent.isMutation]
    | some b => simp [process_completed_download, hb, h, PEvent.isMutation]

/-- Environment where the catalog record for the request's asin is
missing. -/
def demoEnvNoBook : ProcEnv :=
  { book := none, lib_root := some "/lib", folder_rel_path := none,
    complete_action := "copy", file_pattern := "{title}", scan_raises := none,
    mam_result := none, cover_ok := true }

/-- A small completed download: one directory containing three audio
files. -/
def demoFileSys : FileSys :=
  { files := [["", "dl", "book", "ch2.mp3"], ["", "dl", "book", "ch10.mp3"],
      ["", "dl", "book", "ch1.mp3"]],
    dirs := [["", "dl", "book"]] }

theorem process_error_no_mutation_witness :
    (demoEnvNoBook.book = none ∨ demoEnvNoBook.lib_root = none)
    ∧ (((process_completed_download demoEnvNoBook demoRequestRow "/dl/book"
          demoFileSys false false none).events.filter (fun e => e.isMutation)) = []
    ∧ (process_completed_download demoEnvNoBook demoRequestRow "/dl/book"
          demoFileSys false false none).request = demoRequestRow
    ∧ (process_completed_download demoEnvNoBook demoRequestRow "/dl/book"
          demoFileSys false false none).book = demoEnvNoBook.book
    ∧ (process_completed_download demoEnvNoBook demoRequestRow "/dl/book"
          demoFileSys false false none).importSession = none) :=
  ⟨Or.inl rfl,
    process_error_no_mutation demoEnvNoBook demoRequestRow "/dl/book" demoFileSys
      false false none (Or.inl rfl)⟩

/-- C2: the collection branch creates a `LibraryImportSession` rooted at
the download path in status scanning, ends it `completed` on the scan
collaborator's success and `failed` on its exception, logs the outcome,
marks the request completed, and performs no file operation whatsoever
(no audio copy, no source deletion), regardless of the configured
completion action. -/
theorem process_collection_branch (env : ProcEnv) (b : Audiobook) (lr : String)
    (req : AudiobookRequest) (dp : String) (fs : FileSys) (ds : Bool)
    (cl : Option String) (hb : env.book = some b) (hl : env.lib_root = some lr) :
    PEvent.addImportSession dp ImportSessionStatus.scanning
        ∈ (process_completed_download env req dp fs ds true cl).events
    ∧ (process_completed_download env req dp fs ds true cl).importSession
        = some (dp, if env.scan_raises = none then ImportSessionStatus.completed
            else ImportSessionStatus.failed)
    ∧ (process_completed_download env req dp fs ds true cl).request.processing_status
        = "completed"
    ∧ (env.scan_raises = none →
        PEvent.logRequest RequestLogLevel.info
          "Collection scan completed. Review/import items in Library > Import."
          ∈ (process_completed_download env req dp fs ds true cl).events)
    ∧ (∀ e, env.scan_raises = some e →
        PEvent.logRequest RequestLogLevel.error ("Collection scan failed: " ++ e)
          ∈ (process_completed_download env req dp fs ds true cl).events)
    ∧ ((process_completed_download env req dp fs ds true cl).events.filter
        (fun e => e.isFileOp)) = [] := by
  cases hs : env.scan_raises with
  | none =>
    simp [process_completed_download, hb, hl, hs, PEvent.isFileOp]
  | some e =>
    simp [process_completed_download, hb, hl, hs, PEvent.isFileOp]

/-- Environment for a successful collection scan. -/
def demoEnvCollection : ProcEnv :=
  { book := some demoBookNotDownloaded, lib_root := some "/lib",
    folder_rel_path := none, complete_action := "move", file_pattern := "{title}",
    scan_raises := none, mam_result := none, cover_ok := true }

theorem process_collection_branch_witness :
    PEvent.addImportSession "/dl/book" ImportSessionStatus.scanning
        ∈ (process_completed_download demoEnvCollection demoRequestRow "/dl/book"
            demoFileSys false true (some "lbl")).events
    ∧ (process_completed_download demoEnvCollection demoRequestRow "/dl/book"
          demoFileSys false true (some "lbl")).importSession
        = some ("/dl/book",
            if demoEnvCollection.scan_raises = none then ImportSessionStatus.completed
            else ImportSessionStatus.failed)
    ∧ (process_completed_download demoEnvCollection demoRequestRow "/dl/book"
          demoFileSys false true (some "lbl")).request.processing_status = "completed"
    ∧ (demoEnvCollection.scan_raises = none →
        PEvent.logRequest RequestLogLevel.info
          "Collection scan completed. Review/import items in Library > Import."
          ∈ (process_completed_download demoEnvCollection demoRequestRow "/dl/book"
              demoFileSys false true (some "lbl")).events)
    ∧ (∀ e, demoEnvCollection.scan_raises = some e →
        PEvent.logRequest RequestLogLevel.error ("Collection scan failed: " ++ e)
          ∈ (process_completed_download demoEnvCollection demoRequestRow "/dl/book"
              demoFileSys false true (some "lbl")).events)
    ∧ ((process_completed_download demoEnvCollection demoRequestRow "/dl/book"
          demoFileSys false true (some "lbl")).events.filter
        (fun e => e.isFileOp)) = [] :=
  process_collection_branch demoEnvCollection demoBookNotDownloaded "/lib"
    demoRequestRow "/dl/book" demoFileSys false (some "lbl") rfl rfl

/-- C3: over one single-book run the committed `download_progress` values
are exactly `0.90 + (idx/N)*0.02` for the idx-th of N transferred files
(ending at `0.92`), then `0.95` during metadata generation, `0.98` during
cover save (when a cover exists), and `1.0` on completion; the sequence is
monotonically non-decreasing, never below `0.90`, and only the explicit
re-queue of `create_download` resets the field to `0.0`. -/
theorem process_progress_monotone (env : ProcEnv) (b : Audiobook) (lr : String)
    (req : AudiobookRequest) (dp : String) (fs : FileSys) (ds : Bool)
    (cl : Option String) (hb : env.book = some b) (hl : env.lib_root = some lr)
    (htotal : 1 ≤ (collectAudioProc fs dp).length) :
    progressTrace (process_completed_download env req dp fs ds false cl)
      = progress_commits (collectAudioProc fs dp).length b.cover_image.isSome
    ∧ (progress_commits (collectAudioProc fs dp).length
        b.cover_image.isSome).Pairwise (· ≤ ·)
    ∧ copy_progress (collectAudioProc fs dp).length (collectAudioProc fs dp).length
        = 92 / 100
    ∧ (progress_commits (collectAudioProc fs dp).length
        b.cover_image.isSome).getLast? = some 1
    ∧ (∀ x ∈ progress_commits (collectAudioProc fs dp).length b.cover_image.isSome,
        (9 : ℚ) / 10 ≤ x)
    ∧ (∀ r, (resetRequest r).download_progress = 0) := by
  have hcov := applyMamEnrichment_cover b env.mam_result req.mam_id.isSome
  have hprog := applyMamEnrichment_progress b env.mam_result req.mam_id.isSome
  have hzip : (((List.range' 1 (collectAudioProc fs dp).length).zip
        (collectAudioProc fs dp)).map
          (fun pr => copy_progress (collectAudioProc fs dp).length pr.1))
      = (List.range' 1 (collectAudioProc fs dp).length).map
          (copy_progress (collectAudioProc fs dp).length) := by
    have hfst := List.map_fst_zip (List.range' 1 (collectAudioProc fs dp).length)
      (collectAudioProc fs dp) (by rw [List.length_range'])
    rw [show (fun pr : ℕ × FPath =>
          copy_progress (collectAudioProc fs dp).length pr.1)
        = (copy_progress (collectAudioProc fs dp).length) ∘ Prod.fst from rfl,
      ← List.map_map, hfst]
  have htrace : progressTrace (process_completed_download env req dp fs ds false cl)
      = progress_commits (collectAudioProc fs dp).length b.cover_image.isSome := by
    cases hcimg : b.cover_image with
    | none =>
      cases hok : env.cover_ok <;>
        simp [progressTrace, process_completed_download, process_single_book, hb, hl,
          progress_commits, List.filterMap_append, List.filterMap_flatMap, progressOf,
          hprog, hcov, hcimg, hok, flatMap_singleton_map, hzip]
    | some url =>
      cases hok : env.cover_ok <;>
        simp [progressTrace, process_completed_download, process_single_book, hb, hl,
          progress_commits, List.filterMap_append, List.filterMap_flatMap, progressOf,
          hprog, hcov, hcimg, hok, flatMap_singleton_map, hzip]
  exact ⟨htrace, progress_commits_sorted _ _,
    copy_progress_at_total _ htotal, progress_commits_last _ _,
    progress_commits_ge _ _, fun r => rfl⟩

theorem process_progress_monotone_witness :
    (demoEnvCollection.book = some demoBookNotDownloaded
      ∧ demoEnvCollection.lib_root = some "/lib"
      ∧ 1 ≤ (collectAudioProc demoFileSys "/dl/book").length)
    ∧ (progressTrace (process_completed_download demoEnvCollection demoRequestRow
          "/dl/book" demoFileSys false false none)
        = progress_commits (collectAudioProc demoFileSys "/dl/book").length
            demoBookNotDownloaded.cover_image.isSome
    ∧ (progress_commits (collectAudioProc demoFileSys "/dl/book").length
        demoBookNotDownloaded.cover_image.isSome).Pairwise (· ≤ ·)
    ∧ copy_progress (collectAudioProc demoFileSys "/dl/book").length
        (collectAudioProc demoFileSys "/dl/book").length = 92 / 100
    ∧ (progress_commits (collectAudioProc demoFileSys "/dl/book").length
        demoBookNotDownloaded.cover_image.isSome).getLast? = some 1
    ∧ (∀ x ∈ progress_commits (collectAudioProc demoFileSys "/dl/book").length
          demoBookNotDownloaded.cover_image.isSome, (9 : ℚ) / 10 ≤ x)
    ∧ (∀ r, (resetRequest r).download_progress = 0)) :=
  ⟨⟨rfl, rfl, by decide⟩,
    process_progress_monotone demoEnvCollection demoBookNotDownloaded "/lib"
      demoRequestRow "/dl/book" demoFileSys false none rfl rfl (by decide)⟩

/-! ## `reorganize_existing_book` (processor.py lines 310-431) -/

/-- `shutil.move`: the source entry disappears, the destination holds the
file (overwriting any previous entry at that path). -/
def fsMoveFile (fs : FileSys) (s d : FPath) : FileSys :=
  { fs with files := (fs.files.filter (fun f => !(f == s) && !(f == d))) ++ [d] }

/-- `os.makedirs(p, exist_ok=True)`, reporting what was created.
Intermediate parents are elided; this only matters when the destination
folder itself is missing. -/
def fsMakeDirs (fs : FileSys) (p : FPath) : FileSys × List FPath :=
  if fs.dirs.contains p then (fs, []) else ({ fs with dirs := fs.dirs ++ [p] }, [p])

/-- No entry (file or subdirectory) lies directly inside `d`. -/
def fsDirEmpty (fs : FileSys) (d : FPath) : Bool :=
  !(fs.files.any (fun f => f.dropLast == d)) &&
  !(fs.dirs.any (fun d2 => d2.dropLast == d))

structure ReorgEnv where
  /-- `media_management_config.get_library_path` (line 318). -/
  lib_root : Option String
  /-- `get_book_folder_path` (line 334), external library service. -/
  folder_rel_path : Option String
  /-- `media_management_config.get_file_pattern` (line 329). -/
  file_pattern : String
  /-- `LibraryScanner.find_book_path_by_asin` (line 322, external),
  consulted only when the caller supplies no path. -/
  scanner_found : Option FPath

/-- Outcome of a reorganizer run: final tree, the executed `shutil.move`
operations, the directories created and the directories removed.  The
metadata sidecar regeneration (lines 429-430) rewrites files at the
destination and is outside this directory-structure model. -/
structure ReorgResult where
  fs : FileSys
  moves : List (FPath × FPath)
  created_dirs : List FPath
  removed_dirs : List FPath
deriving DecidableEq, Repr

/-- One iteration of the audio move loop (processor.py lines 377-386):
state is (tree, moves so far, `new_audio_paths`). -/
def reorgAudioStep (book : Audiobook) (pattern : String) (total : ℕ)
    (dest_path : FPath) (st : FileSys × List (FPath × FPath) × List FPath)
    (pr : ℕ × FPath) : FileSys × List (FPath × FPath) × List FPath :=
  let ext := strLower (splitext_ext (fileName pr.2))
  let part := part_label_reorganizer total pr.1
  let fname := generate_audiobook_filename book pattern part ext
  let d_path := dest_path ++ [fname]
  if pr.2 = d_path then (st.1, st.2.1, st.2.2 ++ [d_path])
  else (fsMoveFile st.1 pr.2 d_path, st.2.1 ++ [(pr.2, d_path)], st.2.2 ++ [d_path])

/-- One iteration of the remaining-file move loop (processor.py lines
388-400): state is (tree, moves so far, created directories). -/
def reorgNonAudioStep (source_path dest_path : FPath)
    (st : FileSys × List (FPath × FPath) × List FPath) (f : FPath) :
    FileSys × List (FPath × FPath) × List FPath :=
  let relDir := f.dropLast.drop source_path.length
  let d_dir := dest_path ++ relDir
  let made := fsMakeDirs st.1 d_dir
  let d_path := d_dir ++ [fileName f]
  if f = d_path then (made.1, st.2.1, st.2.2 ++ made.2)
  else (fsMoveFile made.1 f d_path, st.2.1 ++ [(f, d_path)], st.2.2 ++ made.2)

/-- `_prune_empty_parents` (processor.py lines 413-424): climb from `path`
towards `stopAt`, removing a directory only while it stays strictly below
`stopAt`, exists and is empty; any other condition stops the walk.  The
fuel (component count of the start path) only bounds the climb. -/
def pruneParents (fs : FileSys) : ℕ → FPath → FPath → FileSys × List FPath
  | 0, _, _ => (fs, [])
  | fuel + 1, path, stopAt =>
    if stopAt.isPrefixOf path && !(path == stopAt) then
      if fs.dirs.contains path && fsDirEmpty fs path then
        let fs1 := { fs with dirs := fs.dirs.filter (fun d => !(d == path)) }
        let nxt := pruneParents fs1 fuel path.dropLast stopAt
        (nxt.1, path :: nxt.2)
      else (fs, [])
    else (fs, [])

/-- Audio discovery of the reorganizer (processor.py lines 352-370):
walk the current folder, keep audio extensions, natural sort. -/
def reorgAudioList (fs : FileSys) (src : FPath) : List FPath :=
  natural_sort ((walkFiles fs src).filter (fun f => hasAudioExt (fileName f)))

/-- `reorganize_existing_book` (processor.py lines 310-431): locate the
book's folder, recompute the canonical destination, move audio files under
the current naming scheme, move remaining files preserving relative
structure, remove now-empty directories under the old folder (skipping the
destination), and prune empty parents up to the library root when the
folder moved. -/
def reorganize_existing_book (env : ReorgEnv) (book : Audiobook)
    (current_path : Option FPath) (fs : FileSys) : ReorgResult :=
  match env.lib_root with
  | none => ⟨fs, [], [], []⟩
  | some lib_root =>
    match (match current_path with | some p => some p | none => env.scanner_found) with
    | none => ⟨fs, [], [], []⟩
    | some source_path =>
      let folder_rel_path := env.folder_rel_path.getD (default_folder_rel_path book)
      let dest_path := toFPath lib_root ++ toFPath folder_rel_path
      let audio := reorgAudioList fs source_path
      if audio.isEmpty then ⟨fs, [], [], []⟩
      else
        let total := audio.length
        let made0 := fsMakeDirs fs dest_path
        let afterAudio := ((List.range' 1 total).zip audio).foldl
          (reorgAudioStep book env.file_pattern total dest_path) (made0.1, [], [])
        let movedSet := afterAudio.2.2
        let nonAudio := (walkFiles afterAudio.1 source_path).filter
          (fun f => !(movedSet.contains f))
        let afterNon := nonAudio.foldl (reorgNonAudioStep source_path dest_path)
          (afterAudio.1, afterAudio.2.1, made0.2)
        let fs3 := afterNon.1
        let walkRoots := source_path :: fs3.dirs.filter (fun d => underF source_path d)
        let removed := walkRoots.filter
          (fun d => !(d == dest_path) && fsDirEmpty fs3 d)
        let fs4 := { fs3 with dirs := fs3.dirs.filter (fun d => !(removed.contains d)) }
        let pruned := if source_path == dest_path then (fs4, ([] : List FPath))
          else pruneParents fs4 source_path.length source_path (toFPath lib_root)
        ⟨pruned.1, afterNon.2.1, afterNon.2.2, removed ++ pruned.2⟩

theorem prefix_dropLast_of_under (src f : FPath) (hpre : src <+: f)
    (hne : src ≠ f) : f ≠ [] ∧ src <+: f.dropLast := by
  have hlen : src.length < f.length := by
    rcases lt_or_ge src.length f.length with h | h
    · exact h
    · exact absurd (hpre.sublist.eq_of_length_le h) hne
  constructor
  · intro h0
    subst h0
    simp at hlen
  · have htake := List.prefix_iff_eq_take.mp hpre
    rw [List.prefix_iff_eq_take, List.dropLast_eq_take, List.take_take,
      min_eq_left (by omega)]
    exact htake

theorem append_drop_of_prefix (src g : FPath) (h : src <+: g) :
    src ++ g.drop src.length = g :=
  List.prefix_iff_eq_append.mp h

theorem dropLast_append_fileName (f : FPath) (h : f ≠ []) :
    f.dropLast ++ [fileName f] = f := by
  unfold fileName
  rw [List.getLastD_eq_getLast?, List.getLast?_eq_getLast f h]
  exact List.dropLast_append_getLast h

theorem reorgNonAudioStep_skip (src : FPath)
    (st : FileSys × List (FPath × FPath) × List FPath) (f : FPath)
    (hu : underF src f = true) (hd : st.1.dirs.contains f.dropLast = true) :
    reorgNonAudioStep src src st f = st := by
  have hu' : src ≠ f ∧ src.isPrefixOf f = true := by
    unfold underF at hu
    simp only [Bool.and_eq_true, decide_eq_true_eq] at hu
    exact hu
  have hpre : src <+: f := List.isPrefixOf_iff_prefix.mp hu'.2
  obtain ⟨hfne, hpre'⟩ := prefix_dropLast_of_under src f hpre hu'.1
  have hddir : src ++ f.dropLast.drop src.length = f.dropLast :=
    append_drop_of_prefix src f.dropLast hpre'
  have hdp : f = (src ++ f.dropLast.drop src.length) ++ [fileName f] := by
    rw [hddir]
    exact (dropLast_append_fileName f hfne).symm
  simp only [reorgNonAudioStep]
  rw [if_pos hdp]
  have hmade : fsMakeDirs st.1 (src ++ f.dropLast.drop src.length) = (st.1, []) := by
    unfold fsMakeDirs
    rw [hddir, if_pos hd]
  rw [hmade]
  simp

theorem reorgNonAudio_fold_skip (src : FPath) :
    ∀ (l : List FPath) (cfs : FileSys) (mvs : List (FPath × FPath))
      (cre : List FPath),
      (∀ f ∈ l, underF src f = true ∧ cfs.dirs.contains f.dropLast = true) →
      l.foldl (reorgNonAudioStep src src) (cfs, mvs, cre) = (cfs, mvs, cre) := by
  intro l
  induction l with
  | nil => intro cfs mvs cre _; rfl
  | cons x xs ih =>
    intro cfs mvs cre h
    have hx := h x (by simp)
    rw [List.foldl_cons,
      reorgNonAudioStep_skip src (cfs, mvs, cre) x hx.1 hx.2]
    exact ih cfs mvs cre (fun f hf => h f (by simp [hf]))

theorem reorgAudio_fold_skip (book : Audiobook) (pattern : String) (total : ℕ)
    (dest : FPath) :
    ∀ (l : List (ℕ × FPath)) (cfs : FileSys) (mvs : List (FPath × FPath))
      (np : List FPath),
      (∀ pr ∈ l, pr.2 = dest ++ [generate_audiobook_filename book pattern
          (part_label_reorganizer total pr.1)
          (strLower (splitext_ext (fileName pr.2)))]) →
      l.foldl (reorgAudioStep book pattern total dest) (cfs, mvs, np)
        = (cfs, mvs, np ++ l.map Prod.snd) := by
  intro l
  induction l with
  | nil => intro cfs mvs np _; simp
  | cons x xs ih =>
    intro cfs mvs np h
    have hx := h x (by simp)
    have hstep : reorgAudioStep book pattern total dest (cfs, mvs, np) x
        = (cfs, mvs, np ++ [x.2]) := by
      simp only [reorgAudioStep]
      rw [if_pos hx]
      rw [← hx]
    rw [List.foldl_cons, hstep,
      ih cfs mvs (np ++ [x.2]) (fun pr hpr => h pr (by simp [hpr]))]
    simp

/-- A book whose canonical folder is `/lib/X/Y (2020)`. -/
def demoReorgBook : Audiobook :=
  { asin := "B002", title := "Y", authors := ["X"], release_year := some 2020 }

def demoReorgEnv : ReorgEnv :=
  { lib_root := some "/lib", folder_rel_path := none, file_pattern := "{title}",
    scanner_found := none }

def demoCanonical : FPath := ["", "lib", "X", "Y (2020)"]

/-- The book sits at its canonical path with its one audio file already
correctly named, plus one empty subdirectory `extras`. -/
def demoReorgFS : FileSys :=
  { files := [["", "lib", "X", "Y (2020)", "Y.mp3"]],
    dirs := [["", "lib"], ["", "lib", "X"], ["", "lib", "X", "Y (2020)"],
      ["", "lib", "X", "Y (2020)", "extras"]] }

/-- C9 counterexample: on a book already at its canonical destination with
already-correct filenames, the run performs zero moves and creates no
directory, but the empty-directory cleanup (processor.py lines 402-410)
still removes the empty subdirectory `extras` — the directory structure is
not left unchanged. -/
theorem reorganize_empty_subdir_counterexample :
    (reorganize_existing_book demoReorgEnv demoReorgBook (some demoCanonical)
        demoReorgFS).moves = []
    ∧ (reorganize_existing_book demoReorgEnv demoReorgBook (some demoCanonical)
        demoReorgFS).created_dirs = []
    ∧ (reorganize_existing_book demoReorgEnv demoReorgBook (some demoCanonical)
        demoReorgFS).removed_dirs = [["", "lib", "X", "Y (2020)", "extras"]] := by
  decide

/-- C9 amended: running `reorganize_existing_book` on a book whose current
folder is the computed canonical destination and whose audio files already
bear the currently-computed names performs zero move operations and
creates no directory; the empty-directory cleanup removes only empty
subdirectories, so when every subdirectory below the folder is non-empty
nothing is removed and the tree is unchanged. -/
theorem reorganize_noop_amended (env : ReorgEnv) (book : Audiobook)
    (src : FPath) (fs : FileSys) (lr : String)
    (hlib : env.lib_root = some lr)
    (hdest : toFPath lr ++ toFPath (env.folder_rel_path.getD
        (default_folder_rel_path book)) = src)
    (hsrcdir : fs.dirs.contains src = true)
    (hne : (reorgAudioList fs src).isEmpty = false)
    (hnames : ∀ pr ∈ (List.range' 1 (reorgAudioList fs src).length).zip
        (reorgAudioList fs src),
        pr.2 = src ++ [generate_audiobook_filename book env.file_pattern
          (part_label_reorganizer (reorgAudioList fs src).length pr.1)
          (strLower (splitext_ext (fileName pr.2)))])
    (hparents : ∀ f ∈ fs.files, underF src f = true →
        fs.dirs.contains f.dropLast = true)
    (hnoempty : ∀ d ∈ fs.dirs, underF src d = true → fsDirEmpty fs d = false) :
    (reorganize_existing_book env book (some src) fs).moves = []
    ∧ (reorganize_existing_book env book (some src) fs).created_dirs = []
    ∧ (reorganize_existing_book env book (some src) fs).removed_dirs = []
    ∧ (reorganize_existing_book env book (some src) fs).fs = fs := by
  have hmade0 : fsMakeDirs fs src = (fs, []) := by
    unfold fsMakeDirs
    rw [if_pos hsrcdir]
  have hfold := reorgAudio_fold_skip book env.file_pattern
    (reorgAudioList fs src).length src
    ((List.range' 1 (reorgAudioList fs src).length).zip (reorgAudioList fs src))
    fs [] [] hnames
  have hsnd : ((List.range' 1 (reorgAudioList fs src).length).zip
      (reorgAudioList fs src)).map Prod.snd = reorgAudioList fs src :=
    List.map_snd_zip _ _ (by rw [List.length_range'])
  rw [hsnd] at hfold
  have hnon : ∀ f ∈ (walkFiles fs src).filter
        (fun f => !((reorgAudioList fs src).contains f)),
      underF src f = true ∧ fs.dirs.contains f.dropLast = true := by
    intro f hf
    have hf' := List.mem_filter.mp hf
    have hf1 : f ∈ fs.files.filter (fun g => underF src g) := hf'.1
    have hfw := List.mem_filter.mp hf1
    exact ⟨hfw.2, hparents f hfw.1 hfw.2⟩
  have hfold2 := reorgNonAudio_fold_skip src
    ((walkFiles fs src).filter (fun f => !((reorgAudioList fs src).contains f)))
    fs [] [] hnon
  have hremoved : (src :: fs.dirs.filter (fun d => underF src d)).filter
      (fun d => !(d == src) && fsDirEmpty fs d) = [] := by
    rw [List.filter_eq_nil_iff]
    intro d hd
    rcases List.mem_cons.mp hd with rfl | hd
    · simp
    · have hd' := List.mem_filter.mp hd
      simp [hnoempty d hd'.1 hd'.2]
  have hresult : reorganize_existing_book env book (some src) fs
      = ⟨fs, [], [], []⟩ := by
    simp only [reorganize_existing_book, hlib, hdest, hne, Bool.false_eq_true,
      if_false, hmade0, List.nil_append, hfold, hfold2, hremoved,
      beq_self_eq_true, if_true]
    simp
  rw [hresult]
  exact ⟨rfl, rfl, rfl, rfl⟩

/-- The same canonical layout without any empty subdirectory. -/
def demoReorgFSClean : FileSys :=
  { files := [["", "lib", "X", "Y (2020)", "Y.mp3"]],
    dirs := [["", "lib"], ["", "lib", "X"], ["", "lib", "X", "Y (2020)"]] }

theorem reorganize_noop_amended_witness :
    (reorganize_existing_book demoReorgEnv demoReorgBook (some demoCanonical)
        demoReorgFSClean).moves = []
    ∧ (reorganize_existing_book demoReorgEnv demoReorgBook (some demoCanonical)
        demoReorgFSClean).created_dirs = []
    ∧ (reorganize_existing_book demoReorgEnv demoReorgBook (some demoCanonical)
        demoReorgFSClean).removed_dirs = []
    ∧ (reorganize_existing_book demoReorgEnv demoReorgBook (some demoCanonical)
        demoReorgFSClean).fs = demoReorgFSClean :=
  reorganize_noop_amended demoReorgEnv demoReorgBook demoCanonical
    demoReorgFSClean "/lib" rfl (by decide) (by decide) (by decide) (by decide)
    (by decide) (by decide)

theorem part_label_padding_witness :
    part_label_processor 5 3 = part_label_reorganizer 5 3
    ∧ (5 = 1 → part_label_processor 5 3 = "")
    ∧ (2 ≤ 5 → 5 ≤ 99 → part_label_processor 5 3 = "Part " ++ padNum 2 3)
    ∧ (100 ≤ 5 → part_label_processor 5 3 = "Part " ++ padNum 3 3)
    ∧ (1 ≤ 3 → 3 ≤ 99 → (padNum 2 3).length = 2) :=
  part_label_padding 5 3

end ABR
